import Mathlib

/-!
Shallow embedding of the VGA buffer writer (`src/vga_buffers.rs`).

The Rust module defines a 25×80 grid of 2-byte cells (`ScreenChar`:
ASCII byte plus packed color byte) and a `Writer` that appends bytes at
the last row, wrapping and scrolling via `new_line`.  Machine bytes are
modelled as `Nat` (values kept below 256 explicitly where the arithmetic
matters), the grid as a list of rows, and the panicking array indexing
of Rust as `Option`-returning accesses, so that in-bounds behaviour is a
theorem rather than an assumption.
-/

set_option maxRecDepth 10000

namespace VgaBuffers

/-- The 16-entry VGA color palette, `enum Color` with `repr(u8)`. -/
inductive Color where
  | Black | Blue | Green | Cyan | Red | Magenta | Brown | LightGray
  | DarkGray | LightBlue | LightGreen | LightCyan | LightRed | Pink | Yellow | White
deriving DecidableEq, Repr, Fintype

/-- The `as u8` discriminant of each `Color` variant. -/
def Color.toU8 : Color → Nat
  | .Black => 0
  | .Blue => 1
  | .Green => 2
  | .Cyan => 3
  | .Red => 4
  | .Magenta => 5
  | .Brown => 6
  | .LightGray => 7
  | .DarkGray => 8
  | .LightBlue => 9
  | .LightGreen => 10
  | .LightCyan => 11
  | .LightRed => 12
  | .Pink => 13
  | .Yellow => 14
  | .White => 15

/-- `struct ColorCode(u8)`: the packed color attribute byte. -/
structure ColorCode where
  val : Nat
deriving DecidableEq, Repr

/-- `ColorCode::new`: `(background as u8) << 4 | (foreground as u8)`, u8 arithmetic. -/
def ColorCode.new (foreground background : Color) : ColorCode :=
  ⟨((background.toU8 <<< 4) % 256) ||| foreground.toU8⟩

/-- `struct ScreenChar`: one display cell, ASCII byte then color byte. -/
structure ScreenChar where
  ascii_character : Nat
  color_code : ColorCode
deriving DecidableEq, Repr

def BUFFER_HEIGHT : Nat := 25
def BUFFER_WIDTH : Nat := 80

/-- The 2D cell array backing the display (`struct Buffer`), row-major. -/
abbrev Grid := List (List ScreenChar)

/-- The in-bounds shape the Rust array type `[[_; 80]; 25]` guarantees. -/
def gridWF (g : Grid) : Prop :=
  g.length = BUFFER_HEIGHT ∧ ∀ row ∈ g, row.length = BUFFER_WIDTH

instance (g : Grid) : Decidable (gridWF g) := by
  unfold gridWF; infer_instance

/-- `self.buffer.chars[row][col].read()`: Rust array indexing panics when
out of bounds, embedded as `none`. -/
def readCell (g : Grid) (row col : Nat) : Option ScreenChar :=
  (g[row]?).bind fun r => r[col]?

/-- `self.buffer.chars[row][col].write(v)`: in-bounds stores the value,
out of bounds is a panic, embedded as `none`. -/
def writeCell (g : Grid) (row col : Nat) (v : ScreenChar) : Option Grid :=
  match g[row]? with
  | none => none
  | some r => if col < r.length then some (g.set row (r.set col v)) else none

/-- The writer state: cursor column, current color, and the grid. -/
structure Writer where
  column_position : Nat
  color_code : ColorCode
  buffer : Grid
deriving DecidableEq, Repr

/-- Inner loop of `new_line`: `for col in 0..BUFFER_WIDTH` reading
`chars[row][col]` and writing it to `chars[row-1][col]`; the argument
counts how many leading columns have been processed. -/
def copyRowLoop (g : Grid) (row : Nat) : Nat → Option Grid
  | 0 => some g
  | k + 1 => do
      let g ← copyRowLoop g row k
      let character ← readCell g row k
      writeCell g (row - 1) k character

/-- Outer loop of `new_line`: `for row in 1..BUFFER_HEIGHT`, in increasing
row order; the argument counts how many rows (starting from row 1) have
been processed. -/
def shiftRowsLoop (g : Grid) : Nat → Option Grid
  | 0 => some g
  | k + 1 => do
      let g ← shiftRowsLoop g k
      copyRowLoop g (k + 1) BUFFER_WIDTH

/-- Loop of `clear_row`: write the blank cell to every column of `row`. -/
def clearRowLoop (g : Grid) (blank : ScreenChar) (row : Nat) : Nat → Option Grid
  | 0 => some g
  | k + 1 => do
      let g ← clearRowLoop g blank row k
      writeCell g row k blank

/-- `Writer::clear_row`: overwrite the whole row with the blank cell
(space character, current color). -/
def Writer.clear_row (w : Writer) (row : Nat) : Option Writer := do
  let blank : ScreenChar := ⟨32, w.color_code⟩
  let g ← clearRowLoop w.buffer blank row BUFFER_WIDTH
  pure { w with buffer := g }

/-- `Writer::new_line`: shift rows 1..HEIGHT up by one (increasing row
order), clear the last row, reset the column to 0. -/
def Writer.new_line (w : Writer) : Option Writer := do
  let g ← shiftRowsLoop w.buffer (BUFFER_HEIGHT - 1)
  let w ← Writer.clear_row { w with buffer := g } (BUFFER_HEIGHT - 1)
  pure { w with column_position := 0 }

/-- `Writer::write_byte`: newline scrolls; otherwise wrap first when the
column counter has reached the width, then store the byte at the last
row and advance the column. -/
def Writer.write_byte (w : Writer) (byte : Nat) : Option Writer :=
  if byte = 10 then w.new_line
  else do
    let w ← if w.column_position ≥ BUFFER_WIDTH then w.new_line else pure w
    let row := BUFFER_HEIGHT - 1
    let col := w.column_position
    let color_code := w.color_code
    let g ← writeCell w.buffer row col ⟨byte, color_code⟩
    pure { w with buffer := g, column_position := w.column_position + 1 }

/-- The byte `write_string` forwards for an input byte: unchanged when
printable ASCII (0x20..=0x7e) or newline, else the 0xfe fallback. -/
def forwardByte (byte : Nat) : Nat :=
  if (0x20 ≤ byte ∧ byte ≤ 0x7e) ∨ byte = 10 then byte else 0xfe

/-- `Writer::write_string`: forward each byte of the input through the
printable-range filter to `write_byte`. -/
def Writer.write_string (w : Writer) (s : List Nat) : Option Writer :=
  match s with
  | [] => some w
  | byte :: rest => do
      let w ← if (0x20 ≤ byte ∧ byte ≤ 0x7e) ∨ byte = 10 then w.write_byte byte
              else w.write_byte 0xfe
      w.write_string rest

/-- Outcome of the `fmt::Write` integration (`fmt::Result`). -/
inductive FmtResult where
  | ok
  | error
deriving DecidableEq, Repr

/-- `impl fmt::Write for Writer`: `write_str` runs `write_string` and
returns `Ok(())` unconditionally. -/
def Writer.write_str (w : Writer) (s : List Nat) : Option (Writer × FmtResult) :=
  (w.write_string s).map fun w => (w, FmtResult.ok)

/-- The blank cell `clear_row` writes: space with the writer's color. -/
def blankChar (cc : ColorCode) : ScreenChar := ⟨32, cc⟩

/-- One fully blank row in color `cc`. -/
def blankRow (cc : ColorCode) : List ScreenChar :=
  List.replicate BUFFER_WIDTH (blankChar cc)

/-- The test fixture `empty_char()`: blank in (Green, Brown). -/
def empty_char : ScreenChar := ⟨32, ColorCode.new Color.Green Color.Brown⟩

/-- The test fixture `construct_buffer()`: 25×80 grid of `empty_char`. -/
def construct_buffer : Grid :=
  List.replicate BUFFER_HEIGHT (List.replicate BUFFER_WIDTH empty_char)

/-- The test fixture `construct_writer()`: column 0, color (Blue, Magenta),
fresh `construct_buffer`. -/
def construct_writer : Writer :=
  ⟨0, ColorCode.new Color.Blue Color.Magenta, construct_buffer⟩

/-- The row a grid holds at index `r` (empty list out of range). -/
def rowAt (g : Grid) (r : Nat) : List ScreenChar := (g[r]?).getD []

/-- A character byte the device may legitimately hold after filtering:
printable ASCII or the 0xfe fallback glyph. -/
def charOK (a : Nat) : Prop := (0x20 ≤ a ∧ a ≤ 0x7e) ∨ a = 0xfe

instance (a : Nat) : Decidable (charOK a) := by
  unfold charOK; infer_instance

/-- Every cell of the grid holds a `charOK` character byte. -/
def allCharsOK (g : Grid) : Prop :=
  ∀ row ∈ g, ∀ cell ∈ row, charOK cell.ascii_character

instance (g : Grid) : Decidable (allCharsOK g) := by
  unfold allCharsOK; infer_instance

/-- The writer invariant: well-formed grid, column within 0..WIDTH. -/
def writerWF (w : Writer) : Prop :=
  gridWF w.buffer ∧ w.column_position ≤ BUFFER_WIDTH

instance (w : Writer) : Decidable (writerWF w) := by
  unfold writerWF; infer_instance

/-- Overwriting a row segment starting at column `c` with the cells made
from `bs`: the cumulative effect of consecutive in-row `write_byte`s. -/
def writeSeg (row : List ScreenChar) (c : Nat) (bs : List Nat) (cc : ColorCode) :
    List ScreenChar :=
  match bs with
  | [] => row
  | b :: rest => writeSeg (row.set c ⟨b, cc⟩) (c + 1) rest cc

/-! ### Basic grid lemmas -/

lemma readCell_eq_rowAt (g : Grid) (r c : Nat) : readCell g r c = (rowAt g r)[c]? := by
  unfold readCell rowAt
  cases g[r]? <;> simp

lemma rowAt_eq (g : Grid) (r : Nat) (hr : r < g.length) : rowAt g r = g[r] := by
  unfold rowAt
  rw [List.getElem?_eq_getElem hr]
  rfl

lemma set_self (g : Grid) (r : Nat) (hr : r < g.length) : g.set r (rowAt g r) = g := by
  apply List.ext_getElem?
  intro n
  rw [List.getElem?_set]
  by_cases h : r = n
  · subst h
    rw [if_pos rfl, if_pos hr, rowAt_eq g r hr]
    exact (List.getElem?_eq_getElem hr).symm
  · rw [if_neg h]

lemma rowAt_set_self (g : Grid) (r : Nat) (row : List ScreenChar) (hr : r < g.length) :
    rowAt (g.set r row) r = row := by
  unfold rowAt
  rw [List.getElem?_set_self hr]
  rfl

lemma rowAt_set_ne (g : Grid) {r r' : Nat} (row : List ScreenChar) (h : r ≠ r') :
    rowAt (g.set r row) r' = rowAt g r' := by
  unfold rowAt
  rw [List.getElem?_set_ne h]

lemma mem_rowAt (g : Grid) (r : Nat) (hr : r < g.length) : rowAt g r ∈ g := by
  rw [rowAt_eq g r hr]
  exact List.getElem_mem hr

lemma gridWF_rowAt {g : Grid} (hW : gridWF g) {r : Nat} (hr : r < BUFFER_HEIGHT) :
    g[r]? = some (rowAt g r) ∧ (rowAt g r).length = BUFFER_WIDTH := by
  have hlen : r < g.length := by rw [hW.1]; exact hr
  refine ⟨?_, ?_⟩
  · rw [rowAt_eq g r hlen]
    exact List.getElem?_eq_getElem hlen
  · exact hW.2 _ (mem_rowAt g r hlen)

lemma gridWF_set {g : Grid} (hW : gridWF g) {r : Nat} {row : List ScreenChar}
    (hrow : row.length = BUFFER_WIDTH) : gridWF (g.set r row) := by
  constructor
  · rw [List.length_set]; exact hW.1
  · intro x hx
    rcases List.mem_or_eq_of_mem_set hx with h | h
    · exact hW.2 x h
    · rw [h]; exact hrow

lemma writeCell_eq {g : Grid} (hW : gridWF g) {r c : Nat} (hr : r < BUFFER_HEIGHT)
    (hc : c < BUFFER_WIDTH) (v : ScreenChar) :
    writeCell g r c v = some (g.set r ((rowAt g r).set c v)) := by
  obtain ⟨hget, hlen⟩ := gridWF_rowAt hW hr
  unfold writeCell
  rw [hget]
  simp only []
  rw [if_pos (by rw [hlen]; exact hc)]

lemma set_take_drop {α : Type} (a b : List α) (k : Nat) (v : α)
    (hka : k < a.length) (hkb : k < b.length) (hv : b[k]? = some v) :
    (b.take k ++ a.drop k).set k v = b.take (k + 1) ++ a.drop (k + 1) := by
  have hlt : (b.take k).length = k := by rw [List.length_take]; omega
  rw [List.set_append, if_neg (by rw [hlt]; exact lt_irrefl k), hlt, Nat.sub_self]
  rw [List.drop_eq_getElem_cons hka, List.set_cons_zero]
  rw [List.take_succ, hv]
  simp

/-! ### Characterizing the `new_line` loops -/

lemma copyRowLoop_eq {g : Grid} (hW : gridWF g) {row : Nat} (h1 : 1 ≤ row)
    (hr : row < BUFFER_HEIGHT) (k : Nat) (hk : k ≤ BUFFER_WIDTH) :
    copyRowLoop g row k =
      some (g.set (row - 1) ((rowAt g row).take k ++ (rowAt g (row - 1)).drop k)) := by
  induction k with
  | zero =>
      simp only [copyRowLoop, List.take_zero, List.drop_zero, List.nil_append]
      rw [set_self g (row - 1) (by rw [hW.1]; omega)]
  | succ k ih =>
      have hkW : k < BUFFER_WIDTH := by omega
      obtain ⟨hgrow, hlrow⟩ := gridWF_rowAt hW hr
      obtain ⟨hgrow1, hlrow1⟩ :=
        gridWF_rowAt hW (show row - 1 < BUFFER_HEIGHT by omega)
      have hmix : ((rowAt g row).take k ++ (rowAt g (row - 1)).drop k).length
          = BUFFER_WIDTH := by
        rw [List.length_append, List.length_take, List.length_drop, hlrow, hlrow1]
        omega
      have hne : row - 1 ≠ row := by omega
      obtain ⟨ch, hch⟩ : ∃ ch, (rowAt g row)[k]? = some ch :=
        ⟨_, List.getElem?_eq_getElem (by rw [hlrow]; exact hkW)⟩
      simp only [copyRowLoop, ih (by omega), Option.bind_eq_bind, Option.some_bind]
      rw [readCell_eq_rowAt, rowAt_set_ne g _ hne, hch]
      simp only [Option.some_bind]
      rw [writeCell_eq (gridWF_set hW hmix) (show row - 1 < BUFFER_HEIGHT by omega) hkW]
      rw [rowAt_set_self g _ _ (by rw [hW.1]; omega), List.set_set]
      rw [set_take_drop _ _ k ch (by rw [hlrow1]; exact hkW) (by rw [hlrow]; exact hkW) hch]

lemma copyRowLoop_full {g : Grid} (hW : gridWF g) {row : Nat} (h1 : 1 ≤ row)
    (hr : row < BUFFER_HEIGHT) :
    copyRowLoop g row BUFFER_WIDTH = some (g.set (row - 1) (rowAt g row)) := by
  rw [copyRowLoop_eq hW h1 hr BUFFER_WIDTH (le_refl _)]
  obtain ⟨_, hlrow⟩ := gridWF_rowAt hW hr
  obtain ⟨_, hlrow1⟩ := gridWF_rowAt hW (show row - 1 < BUFFER_HEIGHT by omega)
  rw [List.take_of_length_le hlrow.le, List.drop_eq_nil_of_le hlrow1.le, List.append_nil]

lemma shiftRowsLoop_eq {g : Grid} (hW : gridWF g) (k : Nat) (hk : k ≤ BUFFER_HEIGHT - 1) :
    shiftRowsLoop g k = some ((g.drop 1).take k ++ g.drop k) := by
  induction k with
  | zero => simp [shiftRowsLoop]
  | succ k ih =>
      have hglen : g.length = BUFFER_HEIGHT := hW.1
      have hBpos : 1 ≤ BUFFER_HEIGHT := by omega
      have hlen_take : ((g.drop 1).take k).length = k := by
        rw [List.length_take, List.length_drop, hglen]; omega
      have hWk : gridWF ((g.drop 1).take k ++ g.drop k) := by
        constructor
        · rw [List.length_append, hlen_take, List.length_drop, hglen]; omega
        · intro x hx
          rcases List.mem_append.1 hx with h | h
          · exact hW.2 x (List.mem_of_mem_drop (List.mem_of_mem_take h))
          · exact hW.2 x (List.mem_of_mem_drop h)
      have hrowAt : rowAt ((g.drop 1).take k ++ g.drop k) (k + 1) = rowAt g (k + 1) := by
        unfold rowAt
        rw [List.getElem?_append_right (by rw [hlen_take]; omega), hlen_take]
        have h1 : k + 1 - k = 1 := by omega
        rw [h1, List.getElem?_drop]
      have hget1 : (g.drop 1)[k]? = some (rowAt g (k + 1)) := by
        rw [List.getElem?_drop]
        have h1 : 1 + k = k + 1 := by omega
        rw [h1]
        exact (gridWF_rowAt hW (show k + 1 < BUFFER_HEIGHT by omega)).1
      simp only [shiftRowsLoop, ih (by omega), Option.bind_eq_bind, Option.some_bind]
      rw [copyRowLoop_full hWk (by omega) (show k + 1 < BUFFER_HEIGHT by omega)]
      rw [Nat.add_sub_cancel, hrowAt]
      rw [set_take_drop g (g.drop 1) k (rowAt g (k + 1))
        (by rw [hglen]; omega) (by rw [List.length_drop, hglen]; omega) hget1]

/-! ### Characterizing `clear_row` -/

lemma clearRowLoop_eq {g : Grid} (hW : gridWF g) (blank : ScreenChar) {row : Nat}
    (hr : row < BUFFER_HEIGHT) (k : Nat) (hk : k ≤ BUFFER_WIDTH) :
    clearRowLoop g blank row k =
      some (g.set row (List.replicate k blank ++ (rowAt g row).drop k)) := by
  induction k with
  | zero =>
      simp only [clearRowLoop, List.replicate_zero, List.drop_zero, List.nil_append]
      rw [set_self g row (by rw [hW.1]; exact hr)]
  | succ k ih =>
      have hkW : k < BUFFER_WIDTH := by omega
      obtain ⟨hgrow, hlrow⟩ := gridWF_rowAt hW hr
      have hmix : (List.replicate k blank ++ (rowAt g row).drop k).length
          = BUFFER_WIDTH := by
        rw [List.length_append, List.length_replicate, List.length_drop, hlrow]; omega
      have htk : List.replicate k blank = (List.replicate BUFFER_WIDTH blank).take k := by
        rw [List.take_replicate]
        congr 1
        omega
      have htk1 : (List.replicate BUFFER_WIDTH blank).take (k + 1)
          = List.replicate (k + 1) blank := by
        rw [List.take_replicate]
        congr 1
        omega
      simp only [clearRowLoop, ih (by omega), Option.bind_eq_bind, Option.some_bind]
      rw [writeCell_eq (gridWF_set hW hmix) hr hkW]
      rw [rowAt_set_self g _ _ (by rw [hW.1]; exact hr), List.set_set]
      rw [htk, set_take_drop _ _ k blank (by rw [hlrow]; exact hkW)
        (by rw [List.length_replicate]; exact hkW)
        (by rw [List.getElem?_replicate, if_pos hkW]), htk1]

/-! ### The scroll shape `g.drop 1 ++ [last]` -/

lemma gridWF_shift {g : Grid} (hW : gridWF g) {r : List ScreenChar}
    (hr : r.length = BUFFER_WIDTH) : gridWF (g.drop 1 ++ [r]) := by
  constructor
  · rw [List.length_append, List.length_drop, hW.1, List.length_singleton]
    decide
  · intro x hx
    rcases List.mem_append.1 hx with h | h
    · exact hW.2 x (List.mem_of_mem_drop h)
    · rw [List.mem_singleton.1 h]; exact hr

lemma gridWF_scroll {g : Grid} (hW : gridWF g) (cc : ColorCode) :
    gridWF (g.drop 1 ++ [blankRow cc]) :=
  gridWF_shift hW (by rw [blankRow, List.length_replicate])

lemma rowAt_append_last {g : Grid} (hlen : g.length = BUFFER_HEIGHT)
    (r : List ScreenChar) :
    rowAt (g.drop 1 ++ [r]) (BUFFER_HEIGHT - 1) = r := by
  have hdl : (g.drop 1).length = BUFFER_HEIGHT - 1 := by
    rw [List.length_drop, hlen]
  unfold rowAt
  rw [List.getElem?_append_right hdl.le, hdl, Nat.sub_self]
  rfl

lemma set_append_last {g : Grid} (hlen : g.length = BUFFER_HEIGHT)
    (r X : List ScreenChar) :
    (g.drop 1 ++ [r]).set (BUFFER_HEIGHT - 1) X = g.drop 1 ++ [X] := by
  have hdl : (g.drop 1).length = BUFFER_HEIGHT - 1 := by
    rw [List.length_drop, hlen]
  rw [List.set_append, if_neg (by rw [hdl]; exact lt_irrefl _), hdl, Nat.sub_self,
    List.set_cons_zero]

lemma rowAt_append_front {g : Grid} (hlen : g.length = BUFFER_HEIGHT)
    (r : List ScreenChar) {i : Nat} (hi : i < BUFFER_HEIGHT - 1) :
    rowAt (g.drop 1 ++ [r]) i = rowAt g (i + 1) := by
  have hdl : (g.drop 1).length = BUFFER_HEIGHT - 1 := by
    rw [List.length_drop, hlen]
  unfold rowAt
  rw [List.getElem?_append, if_pos (by rw [hdl]; exact hi), List.getElem?_drop]
  congr 2
  omega

/-! ### `new_line` and `write_byte` -/

lemma new_line_eq (w : Writer) (hW : gridWF w.buffer) :
    w.new_line = some ⟨0, w.color_code, w.buffer.drop 1 ++ [blankRow w.color_code]⟩ := by
  have hlen : w.buffer.length = BUFFER_HEIGHT := hW.1
  have hlast : BUFFER_HEIGHT - 1 < w.buffer.length := by rw [hlen]; decide
  obtain ⟨x, hx⟩ : ∃ x, w.buffer.drop (BUFFER_HEIGHT - 1) = [x] :=
    ⟨_, by rw [List.drop_eq_getElem_cons hlast,
      List.drop_eq_nil_of_le (by rw [hlen]; decide)]⟩
  have hxmem : x ∈ w.buffer :=
    List.mem_of_mem_drop (n := BUFFER_HEIGHT - 1) (by rw [hx]; exact List.mem_singleton_self x)
  have hdl : (w.buffer.drop 1).length = BUFFER_HEIGHT - 1 := by
    rw [List.length_drop, hlen]
  have htake : (w.buffer.drop 1).take (BUFFER_HEIGHT - 1) = w.buffer.drop 1 :=
    List.take_of_length_le hdl.le
  have hW1 : gridWF (w.buffer.drop 1 ++ [x]) := gridWF_shift hW (hW.2 x hxmem)
  unfold Writer.new_line Writer.clear_row
  rw [shiftRowsLoop_eq hW (BUFFER_HEIGHT - 1) (le_refl _), htake, hx]
  simp only [Option.bind_eq_bind, Option.some_bind]
  rw [clearRowLoop_eq hW1 _ (show BUFFER_HEIGHT - 1 < BUFFER_HEIGHT by decide)
    BUFFER_WIDTH (le_refl _)]
  have hrow : rowAt (w.buffer.drop 1 ++ [x]) (BUFFER_HEIGHT - 1) = x :=
    rowAt_append_last hlen x
  rw [hrow]
  rw [List.drop_eq_nil_of_le (hW.2 x hxmem).le, List.append_nil]
  rw [set_append_last hlen]
  simp only [Option.some_bind]
  rfl

lemma write_byte_newline (w : Writer) : w.write_byte 10 = w.new_line := by
  unfold Writer.write_byte
  rw [if_pos rfl]

lemma write_byte_place (w : Writer) (b : Nat) (hb : b ≠ 10) (hW : gridWF w.buffer)
    (hc : w.column_position < BUFFER_WIDTH) :
    w.write_byte b = some ⟨w.column_position + 1, w.color_code,
      w.buffer.set (BUFFER_HEIGHT - 1)
        ((rowAt w.buffer (BUFFER_HEIGHT - 1)).set w.column_position ⟨b, w.color_code⟩)⟩ := by
  unfold Writer.write_byte
  rw [if_neg hb, if_neg (by omega)]
  simp only [Option.pure_def, Option.bind_eq_bind, Option.some_bind]
  rw [writeCell_eq hW (by decide) hc]
  rfl

lemma write_byte_wrap (w : Writer) (b : Nat) (hb : b ≠ 10) (hW : gridWF w.buffer)
    (hc : BUFFER_WIDTH ≤ w.column_position) :
    w.write_byte b = some ⟨1, w.color_code,
      w.buffer.drop 1 ++ [(blankRow w.color_code).set 0 ⟨b, w.color_code⟩]⟩ := by
  unfold Writer.write_byte
  rw [if_neg hb, if_pos hc, new_line_eq w hW]
  simp only [Option.bind_eq_bind, Option.some_bind]
  rw [writeCell_eq (gridWF_scroll hW _) (by decide) (by decide)]
  rw [rowAt_append_last hW.1, set_append_last hW.1]
  rfl

/-! ### Success and invariant preservation -/

lemma write_byte_wf (w : Writer) (b : Nat) (hW : gridWF w.buffer) :
    ∃ v, w.write_byte b = some v ∧ v.color_code = w.color_code ∧ writerWF v := by
  by_cases hb : b = 10
  · subst hb
    rw [write_byte_newline, new_line_eq w hW]
    exact ⟨_, rfl, rfl, gridWF_scroll hW _, Nat.zero_le _⟩
  · by_cases hc : w.column_position < BUFFER_WIDTH
    · rw [write_byte_place w b hb hW hc]
      refine ⟨_, rfl, rfl, ?_, hc⟩
      exact gridWF_set hW (by rw [List.length_set]; exact (gridWF_rowAt hW (by decide)).2)
    · rw [write_byte_wrap w b hb hW (by omega)]
      refine ⟨_, rfl, rfl, ?_, by show (1:Nat) ≤ BUFFER_WIDTH; decide⟩
      exact gridWF_shift hW (by rw [List.length_set, blankRow, List.length_replicate])

lemma write_string_wf (s : List Nat) (w : Writer) (hW : gridWF w.buffer) :
    ∃ v, w.write_string s = some v ∧ v.color_code = w.color_code ∧ gridWF v.buffer ∧
      (w.column_position ≤ BUFFER_WIDTH → v.column_position ≤ BUFFER_WIDTH) := by
  induction s generalizing w with
  | nil => exact ⟨w, rfl, rfl, hW, fun h => h⟩
  | cons b rest ih =>
      unfold Writer.write_string
      by_cases hb : (0x20 ≤ b ∧ b ≤ 0x7e) ∨ b = 10
      · rw [if_pos hb]
        obtain ⟨v, hv, hcc, hWv, hcol⟩ := write_byte_wf w b hW
        rw [hv]
        simp only [Option.bind_eq_bind, Option.some_bind]
        obtain ⟨u, hu, hucc, hWu, hcu⟩ := ih v hWv
        exact ⟨u, hu, by rw [hucc, hcc], hWu, fun _ => hcu hcol⟩
      · rw [if_neg hb]
        obtain ⟨v, hv, hcc, hWv, hcol⟩ := write_byte_wf w 0xfe hW
        rw [hv]
        simp only [Option.bind_eq_bind, Option.some_bind]
        obtain ⟨u, hu, hucc, hWu, hcu⟩ := ih v hWv
        exact ⟨u, hu, by rw [hucc, hcc], hWu, fun _ => hcu hcol⟩

/-! ### Character-range preservation -/

lemma allCharsOK_set {g : Grid} (hA : allCharsOK g) {r : Nat} {row : List ScreenChar}
    (hrow : ∀ cell ∈ row, charOK cell.ascii_character) : allCharsOK (g.set r row) := by
  intro x hx
  rcases List.mem_or_eq_of_mem_set hx with h | h
  · exact hA x h
  · rw [h]; exact hrow

lemma allCharsOK_rowAt {g : Grid} (hA : allCharsOK g) {r : Nat} (hr : r < g.length) :
    ∀ cell ∈ rowAt g r, charOK cell.ascii_character :=
  hA _ (mem_rowAt g r hr)

lemma charOK_blankRow (cc : ColorCode) :
    ∀ cell ∈ blankRow cc, charOK cell.ascii_character := by
  intro cell hc
  rw [(List.mem_replicate.1 hc).2]
  refine Or.inl ?_
  show 0x20 ≤ (32:Nat) ∧ (32:Nat) ≤ 0x7e
  decide

lemma allCharsOK_scroll {g : Grid} (hA : allCharsOK g) (cc : ColorCode) :
    allCharsOK (g.drop 1 ++ [blankRow cc]) := by
  intro x hx
  rcases List.mem_append.1 hx with h | h
  · exact hA x (List.mem_of_mem_drop h)
  · rw [List.mem_singleton.1 h]
    exact charOK_blankRow cc

lemma allCharsOK_setCell {row : List ScreenChar}
    (hrow : ∀ cell ∈ row, charOK cell.ascii_character) {b : Nat} (hb : charOK b)
    (c : Nat) (cc : ColorCode) :
    ∀ cell ∈ row.set c ⟨b, cc⟩, charOK cell.ascii_character := by
  intro cell hc
  rcases List.mem_or_eq_of_mem_set hc with h | h
  · exact hrow cell h
  · rw [h]; exact hb

lemma write_byte_charOK (w : Writer) (b : Nat) (hW : gridWF w.buffer)
    (hb : charOK b ∨ b = 10) (hA : allCharsOK w.buffer) :
    ∀ v, w.write_byte b = some v → allCharsOK v.buffer := by
  intro v hv
  by_cases h10 : b = 10
  · subst h10
    rw [write_byte_newline, new_line_eq w hW] at hv
    obtain rfl := Option.some_inj.mp hv
    exact allCharsOK_scroll hA _
  · have hbOK : charOK b := hb.resolve_right h10
    by_cases hc : w.column_position < BUFFER_WIDTH
    · rw [write_byte_place w b h10 hW hc] at hv
      obtain rfl := Option.some_inj.mp hv
      exact allCharsOK_set hA
        (allCharsOK_setCell (allCharsOK_rowAt hA (by rw [hW.1]; decide)) hbOK _ _)
    · rw [write_byte_wrap w b h10 hW (by omega)] at hv
      obtain rfl := Option.some_inj.mp hv
      intro x hx
      rcases List.mem_append.1 hx with h | h
      · exact hA x (List.mem_of_mem_drop h)
      · rw [List.mem_singleton.1 h]
        exact allCharsOK_setCell (charOK_blankRow _) hbOK _ _

lemma write_string_charOK (s : List Nat) (w : Writer) (hW : gridWF w.buffer)
    (hA : allCharsOK w.buffer) :
    ∀ v, w.write_string s = some v → allCharsOK v.buffer := by
  induction s generalizing w with
  | nil =>
      intro v hv
      obtain rfl := Option.some_inj.mp hv
      exact hA
  | cons b rest ih =>
      intro v hv
      unfold Writer.write_string at hv
      by_cases hb : (0x20 ≤ b ∧ b ≤ 0x7e) ∨ b = 10
      · rw [if_pos hb] at hv
        obtain ⟨u, hu, _, hWu⟩ := write_byte_wf w b hW
        rw [hu] at hv
        simp only [Option.bind_eq_bind, Option.some_bind] at hv
        have hAu : allCharsOK u.buffer :=
          write_byte_charOK w b hW (hb.imp (fun h => Or.inl h) (fun h => h)) hA u hu
        exact ih u hWu.1 hAu v hv
      · rw [if_neg hb] at hv
        obtain ⟨u, hu, _, hWu⟩ := write_byte_wf w 0xfe hW
        rw [hu] at hv
        simp only [Option.bind_eq_bind, Option.some_bind] at hv
        have hAu : allCharsOK u.buffer :=
          write_byte_charOK w 0xfe hW (Or.inl (Or.inr rfl)) hA u hu
        exact ih u hWu.1 hAu v hv

/-! ### Consecutive in-row writes -/

lemma writeSeg_getElem? (bs : List Nat) (row : List ScreenChar) (c : Nat) (cc : ColorCode)
    (j : Nat) (hfit : c + bs.length ≤ row.length) :
    (writeSeg row c bs cc)[j]? =
      if c ≤ j ∧ j < c + bs.length then (bs[j - c]?).map (fun b => (⟨b, cc⟩ : ScreenChar))
      else row[j]? := by
  induction bs generalizing row c with
  | nil =>
      rw [if_neg (by simp only [List.length_nil]; omega)]
      rfl
  | cons b rest ih =>
      simp only [List.length_cons] at hfit
      have hc : c < row.length := by omega
      show (writeSeg (row.set c ⟨b, cc⟩) (c + 1) rest cc)[j]? = _
      rw [ih (row.set c ⟨b, cc⟩) (c + 1) (by rw [List.length_set]; omega)]
      by_cases h1 : c + 1 ≤ j ∧ j < c + 1 + rest.length
      · rw [if_pos h1, if_pos (by simp only [List.length_cons]; omega)]
        have hjc : j - c = (j - (c + 1)) + 1 := by omega
        rw [hjc, List.getElem?_cons_succ]
      · rw [if_neg h1]
        by_cases h2 : c = j
        · subst h2
          rw [List.getElem?_set_self hc, if_pos (by simp only [List.length_cons]; omega),
            Nat.sub_self, List.getElem?_cons_zero]
          rfl
        · rw [List.getElem?_set_ne h2, if_neg (by simp only [List.length_cons]; omega)]

lemma writeSeg_map (bs : List Nat) (row : List ScreenChar) (cc : ColorCode)
    (hlen : bs.length = row.length) :
    writeSeg row 0 bs cc = bs.map (fun b => (⟨b, cc⟩ : ScreenChar)) := by
  apply List.ext_getElem?
  intro j
  rw [writeSeg_getElem? bs row 0 cc j (by omega), List.getElem?_map]
  by_cases hj : j < bs.length
  · rw [if_pos ⟨Nat.zero_le _, by omega⟩, Nat.sub_zero]
  · rw [if_neg (by omega), List.getElem?_eq_none (show row.length ≤ j by omega),
      List.getElem?_eq_none (show bs.length ≤ j by omega)]
    rfl

lemma write_string_fill (bs : List Nat) (w : Writer) (hW : gridWF w.buffer)
    (hbs : ∀ b ∈ bs, 0x20 ≤ b ∧ b ≤ 0x7e)
    (hfit : w.column_position + bs.length ≤ BUFFER_WIDTH) :
    w.write_string bs = some ⟨w.column_position + bs.length, w.color_code,
      w.buffer.set (BUFFER_HEIGHT - 1)
        (writeSeg (rowAt w.buffer (BUFFER_HEIGHT - 1)) w.column_position bs
          w.color_code)⟩ := by
  induction bs generalizing w with
  | nil =>
      show some w = some ⟨w.column_position + 0, w.color_code,
        w.buffer.set (BUFFER_HEIGHT - 1) (rowAt w.buffer (BUFFER_HEIGHT - 1))⟩
      rw [set_self w.buffer (BUFFER_HEIGHT - 1) (by rw [hW.1]; decide), Nat.add_zero]
  | cons b rest ih =>
      have hb : 0x20 ≤ b ∧ b ≤ 0x7e := hbs b (List.mem_cons_self b rest)
      have hb10 : b ≠ 10 := by omega
      have hcol : w.column_position < BUFFER_WIDTH := by
        simp only [List.length_cons] at hfit; omega
      have hrow : (rowAt w.buffer (BUFFER_HEIGHT - 1)).length = BUFFER_WIDTH :=
        (gridWF_rowAt hW (by decide)).2
      have hW1 : gridWF (w.buffer.set (BUFFER_HEIGHT - 1)
          ((rowAt w.buffer (BUFFER_HEIGHT - 1)).set w.column_position
            ⟨b, w.color_code⟩)) :=
        gridWF_set hW (by rw [List.length_set]; exact hrow)
      unfold Writer.write_string
      rw [if_pos (Or.inl hb), write_byte_place w b hb10 hW hcol]
      simp only [Option.bind_eq_bind, Option.some_bind]
      rw [ih _ hW1 (fun x hx => hbs x (List.mem_cons_of_mem b hx))
        (by show w.column_position + 1 + rest.length ≤ BUFFER_WIDTH
            simp only [List.length_cons] at hfit
            omega)]
      rw [rowAt_set_self _ _ _ (by rw [hW.1]; decide), List.set_set]
      simp only [Option.some_inj, Writer.mk.injEq, List.length_cons]
      refine ⟨by omega, trivial, ?_⟩
      rfl

lemma blankRow_length (cc : ColorCode) : (blankRow cc).length = BUFFER_WIDTH := by
  unfold blankRow
  rw [List.length_replicate]

lemma write_string_cons (w : Writer) (b : Nat) (rest : List Nat) :
    w.write_string (b :: rest) =
      Bind.bind (if (0x20 ≤ b ∧ b ≤ 0x7e) ∨ b = 10 then w.write_byte b
        else w.write_byte 0xfe) (fun v => v.write_string rest) := by
  rw [Writer.write_string]
  split <;> rfl

lemma write_string_nil (w : Writer) : w.write_string [] = some w := rfl

lemma write_string_step (w v : Writer) (b : Nat) (rest : List Nat)
    (hb : (0x20 ≤ b ∧ b ≤ 0x7e) ∨ b = 10) (hv : w.write_byte b = some v) :
    w.write_string (b :: rest) = v.write_string rest := by
  rw [write_string_cons, if_pos hb, hv]
  rfl

lemma bind_write_byte_step (w v : Writer) (b c : Nat)
    (hv : w.write_byte b = some v) :
    Bind.bind (w.write_byte b) (fun u => u.write_byte c) = v.write_byte c := by
  rw [hv]
  rfl

lemma write_byte_place_mk (col : Nat) (cc : ColorCode) (g : Grid) (b : Nat)
    (hb : b ≠ 10) (hW : gridWF g) (hc : col < BUFFER_WIDTH) :
    (⟨col, cc, g⟩ : Writer).write_byte b = some ⟨col + 1, cc,
      g.set (BUFFER_HEIGHT - 1)
        ((rowAt g (BUFFER_HEIGHT - 1)).set col ⟨b, cc⟩)⟩ :=
  write_byte_place ⟨col, cc, g⟩ b hb hW hc

/-- The all-(Blue, Magenta) blank grid of the rendered spec scenario. -/
def bm_code : ColorCode := ColorCode.new Color.Blue Color.Magenta

def bm_grid : Grid := List.replicate BUFFER_HEIGHT (blankRow bm_code)

def bm_writer : Writer := ⟨0, bm_code, bm_grid⟩

/-- Expected row holding 'a' at column 0. -/
def bm_rowA : List ScreenChar := (blankRow bm_code).set 0 ⟨97, bm_code⟩

/-- Expected row holding 'b' at column 0 and 'c' at column 1. -/
def bm_rowBC : List ScreenChar :=
  ((blankRow bm_code).set 0 ⟨98, bm_code⟩).set 1 ⟨99, bm_code⟩

/-- Expected final grid of the scenario. -/
def bm_w2buf : Grid :=
  List.replicate 22 (blankRow bm_code) ++ [bm_rowA, bm_rowBC, blankRow bm_code]

/-! ## The claims -/

/-- C1: at `column_position = WIDTH` a printable byte wraps first (`new_line`,
then placement): writing exactly 80 printable bytes from column 0 fills the
last row completely with no scroll, and one further printable byte triggers
exactly one scroll (the filled row moves to HEIGHT−2) and lands at
(HEIGHT−1, 0). -/
theorem Claims.C1 (w : Writer) (bs : List Nat) (b : Nat) (hW : gridWF w.buffer)
    (hc0 : w.column_position = 0) (hlen : bs.length = BUFFER_WIDTH)
    (hbs : ∀ x ∈ bs, 0x20 ≤ x ∧ x ≤ 0x7e) (hb : 0x20 ≤ b ∧ b ≤ 0x7e) :
    ∃ w1, w.write_string bs = some w1 ∧
      w1.column_position = BUFFER_WIDTH ∧
      (∀ r, r ≠ BUFFER_HEIGHT - 1 → w1.buffer[r]? = w.buffer[r]?) ∧
      w1.buffer[BUFFER_HEIGHT - 1]? =
        some (bs.map fun x => (⟨x, w.color_code⟩ : ScreenChar)) ∧
      w1.write_byte b = Bind.bind w1.new_line (fun v => v.write_byte b) ∧
      ∃ w2, w1.write_byte b = some w2 ∧
        w2.column_position = 1 ∧
        readCell w2.buffer (BUFFER_HEIGHT - 1) 0 = some ⟨b, w.color_code⟩ ∧
        w2.buffer[BUFFER_HEIGHT - 2]? =
          some (bs.map fun x => (⟨x, w.color_code⟩ : ScreenChar)) ∧
        (∀ r, r < BUFFER_HEIGHT - 2 → w2.buffer[r]? = w.buffer[r + 1]?) := by
  have hb10 : b ≠ 10 := by omega
  have hfit : w.column_position + bs.length ≤ BUFFER_WIDTH := by
    rw [hc0]; omega
  have hrow24 := gridWF_rowAt hW (show BUFFER_HEIGHT - 1 < BUFFER_HEIGHT by decide)
  have hfill := write_string_fill bs w hW hbs hfit
  rw [hc0, writeSeg_map bs _ _ (by rw [hlen, hrow24.2]), hlen] at hfill
  simp only [Nat.zero_add] at hfill
  have hRlen : (bs.map fun x => (⟨x, w.color_code⟩ : ScreenChar)).length
      = BUFFER_WIDTH := by
    rw [List.length_map, hlen]
  have hW1 : gridWF (w.buffer.set (BUFFER_HEIGHT - 1)
      (bs.map fun x => (⟨x, w.color_code⟩ : ScreenChar))) := gridWF_set hW hRlen
  have hg1len : (w.buffer.set (BUFFER_HEIGHT - 1)
      (bs.map fun x => (⟨x, w.color_code⟩ : ScreenChar))).length = BUFFER_HEIGHT := by
    rw [List.length_set]; exact hW.1
  refine ⟨⟨BUFFER_WIDTH, w.color_code, w.buffer.set (BUFFER_HEIGHT - 1)
      (bs.map fun x => (⟨x, w.color_code⟩ : ScreenChar))⟩,
    hfill, rfl, ?_, ?_, ?_, ?_⟩
  · intro r hr
    exact List.getElem?_set_ne (Ne.symm hr)
  · exact List.getElem?_set_self (by rw [hW.1]; decide)
  · rw [write_byte_wrap _ b hb10 hW1 (le_refl _), new_line_eq _ hW1]
    simp only [Option.bind_eq_bind, Option.some_bind]
    rw [write_byte_place _ b hb10 (gridWF_scroll hW1 _)
      (by show (0:Nat) < BUFFER_WIDTH; decide)]
    rw [rowAt_append_last hg1len, set_append_last hg1len]
  · refine ⟨⟨1, w.color_code,
      (w.buffer.set (BUFFER_HEIGHT - 1)
        (bs.map fun x => (⟨x, w.color_code⟩ : ScreenChar))).drop 1
        ++ [(blankRow w.color_code).set 0 ⟨b, w.color_code⟩]⟩,
      write_byte_wrap _ b hb10 hW1 (le_refl _), rfl, ?_, ?_, ?_⟩
    · rw [readCell_eq_rowAt, rowAt_append_last hg1len]
      exact List.getElem?_set_self (by rw [blankRow_length]; decide)
    · rw [List.getElem?_append,
        if_pos (by rw [List.length_drop, hg1len]; decide), List.getElem?_drop]
      have h12 : 1 + (BUFFER_HEIGHT - 2) = BUFFER_HEIGHT - 1 := by decide
      rw [h12]
      exact List.getElem?_set_self (by rw [hW.1]; decide)
    · intro r hr
      rw [List.getElem?_append,
        if_pos (by rw [List.length_drop, hg1len]; omega), List.getElem?_drop]
      have h1r : 1 + r = r + 1 := by omega
      rw [h1r]
      exact List.getElem?_set_ne (by omega)

/-- C1 witness: 80 copies of byte 65 followed by byte 66 on the test fixture
writer. -/
theorem Claims.C1_witness :
    ∃ w1, construct_writer.write_string (List.replicate 80 65) = some w1 ∧
      w1.column_position = BUFFER_WIDTH ∧
      (∀ r, r ≠ BUFFER_HEIGHT - 1 → w1.buffer[r]? = construct_writer.buffer[r]?) ∧
      w1.buffer[BUFFER_HEIGHT - 1]? =
        some ((List.replicate 80 65).map fun x =>
          (⟨x, construct_writer.color_code⟩ : ScreenChar)) ∧
      w1.write_byte 66 = Bind.bind w1.new_line (fun v => v.write_byte 66) ∧
      ∃ w2, w1.write_byte 66 = some w2 ∧
        w2.column_position = 1 ∧
        readCell w2.buffer (BUFFER_HEIGHT - 1) 0
          = some ⟨66, construct_writer.color_code⟩ ∧
        w2.buffer[BUFFER_HEIGHT - 2]? =
          some ((List.replicate 80 65).map fun x =>
            (⟨x, construct_writer.color_code⟩ : ScreenChar)) ∧
        (∀ r, r < BUFFER_HEIGHT - 2 →
          w2.buffer[r]? = construct_writer.buffer[r + 1]?) :=
  Claims.C1 construct_writer (List.replicate 80 65) 66 (by decide) rfl
    (by decide) (by decide) (by decide)

/-- C6: the rendered spec scenario: formatted-writing "a\n" then "bc\n" on the
all-(Blue, Magenta) blank 80×25 grid ends with 'a' at (22, 0), 'b' at (23, 0),
'c' at (23, 1), the rest of rows 22–24 blank in (Blue, Magenta), every cell of
rows 22–24 in that attribute, rows 0–21 untouched, and the column at 0; both
formatted calls return Ok. -/
theorem Claims.C6 :
    ∃ w1 w2 : Writer,
      bm_writer.write_str [97, 10] = some (w1, FmtResult.ok) ∧
      w1.write_str [98, 99, 10] = some (w2, FmtResult.ok) ∧
      w2.column_position = 0 ∧
      readCell w2.buffer 22 0 = some ⟨97, bm_code⟩ ∧
      readCell w2.buffer 23 0 = some ⟨98, bm_code⟩ ∧
      readCell w2.buffer 23 1 = some ⟨99, bm_code⟩ ∧
      (∀ r, r < BUFFER_HEIGHT → ∀ c, c < BUFFER_WIDTH →
        (22 ≤ r ∧ ¬(r = 22 ∧ c = 0) ∧ ¬(r = 23 ∧ (c = 0 ∨ c = 1))) →
        readCell w2.buffer r c = some (blankChar bm_code)) ∧
      (∀ r, r < BUFFER_HEIGHT → ∀ c, c < BUFFER_WIDTH →
        22 ≤ r → (readCell w2.buffer r c).map ScreenChar.color_code = some bm_code) ∧
      (∀ r, r < 22 → w2.buffer[r]? = bm_writer.buffer[r]?) := by
  have hs1 : bm_writer.write_string [97, 10] = some ⟨0, bm_code,
      List.replicate 23 (blankRow bm_code) ++ [bm_rowA, blankRow bm_code]⟩ := by
    rw [write_string_step _ _ 97 [10] (by decide)
        (write_byte_place _ 97 (by decide) (by decide) (by decide)),
      write_string_step _ _ 10 [] (by decide)
        ((write_byte_newline _).trans (new_line_eq _ (by decide))),
      write_string_nil]
    decide
  have hs2 : (⟨0, bm_code,
      List.replicate 23 (blankRow bm_code) ++ [bm_rowA, blankRow bm_code]⟩ :
      Writer).write_string [98, 99, 10] = some ⟨0, bm_code, bm_w2buf⟩ := by
    rw [write_string_step _ _ 98 [99, 10] (by decide)
        (write_byte_place _ 98 (by decide) (by decide) (by decide)),
      write_string_step _ _ 99 [10] (by decide)
        (write_byte_place _ 99 (by decide) (by decide) (by decide)),
      write_string_step _ _ 10 [] (by decide)
        ((write_byte_newline _).trans (new_line_eq _ (by decide))),
      write_string_nil]
    decide
  refine ⟨⟨0, bm_code,
      List.replicate 23 (blankRow bm_code) ++ [bm_rowA, blankRow bm_code]⟩,
    ⟨0, bm_code, bm_w2buf⟩, ?_, ?_, rfl, by decide, by decide, by decide,
    by decide, by decide, by decide⟩
  · unfold Writer.write_str
    rw [hs1]
    rfl
  · unfold Writer.write_str
    rw [hs2]
    rfl

/-- C7: printable X then printable Y on the fresh test-fixture writer land at
(HEIGHT−1, 0) and (HEIGHT−1, 1) in the writer's color; every other cell stays
exactly as it was, namely the blank cell of the fresh state. -/
theorem Claims.C7 (X Y : Nat) (hX : 0x20 ≤ X ∧ X ≤ 0x7e)
    (hY : 0x20 ≤ Y ∧ Y ≤ 0x7e) :
    ∃ v, Bind.bind (construct_writer.write_byte X) (fun u => u.write_byte Y)
        = some v ∧
      readCell v.buffer (BUFFER_HEIGHT - 1) 0
        = some ⟨X, construct_writer.color_code⟩ ∧
      readCell v.buffer (BUFFER_HEIGHT - 1) 1
        = some ⟨Y, construct_writer.color_code⟩ ∧
      (∀ r c, ¬(r = BUFFER_HEIGHT - 1 ∧ (c = 0 ∨ c = 1)) →
        readCell v.buffer r c = readCell construct_writer.buffer r c) ∧
      (∀ r, r < BUFFER_HEIGHT → ∀ c, c < BUFFER_WIDTH →
        readCell construct_writer.buffer r c = some empty_char) := by
  have hX10 : X ≠ 10 := by omega
  have hY10 : Y ≠ 10 := by omega
  have hWc : gridWF construct_buffer := by decide
  have hrow : (rowAt construct_buffer (BUFFER_HEIGHT - 1)).length
      = BUFFER_WIDTH := by decide
  have h1 : construct_writer.write_byte X =
      some ⟨1, ColorCode.new Color.Blue Color.Magenta,
        construct_buffer.set (BUFFER_HEIGHT - 1)
          ((rowAt construct_buffer (BUFFER_HEIGHT - 1)).set 0
            ⟨X, ColorCode.new Color.Blue Color.Magenta⟩)⟩ :=
    write_byte_place_mk 0 _ construct_buffer X hX10 hWc (by decide)
  have hW1 : gridWF (construct_buffer.set (BUFFER_HEIGHT - 1)
      ((rowAt construct_buffer (BUFFER_HEIGHT - 1)).set 0
        ⟨X, ColorCode.new Color.Blue Color.Magenta⟩)) :=
    gridWF_set hWc (by rw [List.length_set]; exact hrow)
  have h2 := write_byte_place_mk 1 (ColorCode.new Color.Blue Color.Magenta) _
    Y hY10 hW1 (by decide)
  rw [bind_write_byte_step _ _ X Y h1, h2]
  rw [rowAt_set_self _ _ _ (by rw [hWc.1]; decide), List.set_set]
  refine ⟨_, rfl, ?_, ?_, ?_, by decide⟩
  · rw [readCell_eq_rowAt, rowAt_set_self _ _ _ (by rw [hWc.1]; decide),
      List.getElem?_set_ne (by decide),
      List.getElem?_set_self (by rw [hrow]; decide)]
    rfl
  · rw [readCell_eq_rowAt, rowAt_set_self _ _ _ (by rw [hWc.1]; decide),
      List.getElem?_set_self (by rw [List.length_set, hrow]; decide)]
    rfl
  · intro r c hrc
    by_cases hr : r = BUFFER_HEIGHT - 1
    · subst hr
      have hc0 : c ≠ 0 := fun h => hrc ⟨rfl, Or.inl h⟩
      have hc1 : c ≠ 1 := fun h => hrc ⟨rfl, Or.inr h⟩
      rw [readCell_eq_rowAt, readCell_eq_rowAt,
        rowAt_set_self _ _ _ (by rw [hWc.1]; decide),
        List.getElem?_set_ne (Ne.symm hc1), List.getElem?_set_ne (Ne.symm hc0)]
      rfl
    · rw [readCell_eq_rowAt, readCell_eq_rowAt, rowAt_set_ne _ _ (Ne.symm hr)]
      rfl

/-- C7 witness: bytes 'X' (88) and 'Y' (89), as in the repository's test. -/
theorem Claims.C7_witness :
    ∃ v, Bind.bind (construct_writer.write_byte 88) (fun u => u.write_byte 89)
        = some v ∧
      readCell v.buffer (BUFFER_HEIGHT - 1) 0
        = some ⟨88, construct_writer.color_code⟩ ∧
      readCell v.buffer (BUFFER_HEIGHT - 1) 1
        = some ⟨89, construct_writer.color_code⟩ ∧
      (∀ r c, ¬(r = BUFFER_HEIGHT - 1 ∧ (c = 0 ∨ c = 1)) →
        readCell v.buffer r c = readCell construct_writer.buffer r c) ∧
      (∀ r, r < BUFFER_HEIGHT → ∀ c, c < BUFFER_WIDTH →
        readCell construct_writer.buffer r c = some empty_char) :=
  Claims.C7 88 89 (by decide) (by decide)

/-- C2 (amended): from any well-formed state, `new_line` shifts every row up by
one (new (r−1, c) equals old (r, c)), fills the last row with the blank cell in
the writer's color, and resets the column to 0; and the old row 0 content
appears nowhere in the result provided it differs from each of the old rows
1..HEIGHT−1 and from the blank row. -/
theorem Claims.C2 (w : Writer) (hW : gridWF w.buffer) :
    ∃ v, w.new_line = some v ∧ v.column_position = 0 ∧
      (∀ r, 1 ≤ r → r < BUFFER_HEIGHT →
        ∀ c, readCell v.buffer (r - 1) c = readCell w.buffer r c) ∧
      (∀ c, c < BUFFER_WIDTH →
        readCell v.buffer (BUFFER_HEIGHT - 1) c = some (blankChar w.color_code)) ∧
      ((∀ r, 1 ≤ r → r < BUFFER_HEIGHT → rowAt w.buffer r ≠ rowAt w.buffer 0) →
        blankRow w.color_code ≠ rowAt w.buffer 0 →
        ∀ r, r < BUFFER_HEIGHT → rowAt v.buffer r ≠ rowAt w.buffer 0) := by
  rw [new_line_eq w hW]
  refine ⟨_, rfl, rfl, ?_, ?_, ?_⟩
  · intro r h1 hr c
    rw [readCell_eq_rowAt, readCell_eq_rowAt,
      rowAt_append_front hW.1 _ (show r - 1 < BUFFER_HEIGHT - 1 by omega)]
    have h2 : r - 1 + 1 = r := by omega
    rw [h2]
  · intro c hc
    rw [readCell_eq_rowAt, rowAt_append_last hW.1, blankRow,
      List.getElem?_replicate, if_pos hc]
  · intro hdist hblank r hr
    by_cases h : r < BUFFER_HEIGHT - 1
    · rw [rowAt_append_front hW.1 _ h]
      exact hdist (r + 1) (by omega) (by omega)
    · have hr1 : r = BUFFER_HEIGHT - 1 := by omega
      subst hr1
      rw [rowAt_append_last hW.1]
      exact hblank

/-- C2 witness: the amended theorem applied to the test fixture writer. -/
theorem Claims.C2_witness :
    ∃ v, construct_writer.new_line = some v ∧ v.column_position = 0 ∧
      (∀ r, 1 ≤ r → r < BUFFER_HEIGHT →
        ∀ c, readCell v.buffer (r - 1) c = readCell construct_writer.buffer r c) ∧
      (∀ c, c < BUFFER_WIDTH →
        readCell v.buffer (BUFFER_HEIGHT - 1) c
          = some (blankChar construct_writer.color_code)) ∧
      ((∀ r, 1 ≤ r → r < BUFFER_HEIGHT →
          rowAt construct_writer.buffer r ≠ rowAt construct_writer.buffer 0) →
        blankRow construct_writer.color_code ≠ rowAt construct_writer.buffer 0 →
        ∀ r, r < BUFFER_HEIGHT →
          rowAt v.buffer r ≠ rowAt construct_writer.buffer 0) :=
  Claims.C2 construct_writer (by decide)

/-- C2 counterexample: on the uniform test grid every row equals row 0, and
after one `new_line` the old row-0 content still appears in the grid (it is
the new row 0), refuting the unconditional "appears nowhere" clause of the
claim as stated. -/
theorem Claims.C2_counterexample :
    ∃ v, construct_writer.new_line = some v ∧
      v.buffer[0]? = some (rowAt construct_writer.buffer 0) := by
  refine ⟨⟨0, ColorCode.new Color.Blue Color.Magenta,
    construct_buffer.drop 1 ++ [blankRow (ColorCode.new Color.Blue Color.Magenta)]⟩,
    ?_, ?_⟩
  · exact new_line_eq construct_writer (by decide)
  · decide

/-- C3: `write_string` forwards printable-or-newline bytes unchanged and
substitutes 0xfe otherwise, and consequently (given a grid whose cells are all
in range) every cell after `write_string` holds a printable byte or 0xfe,
never an out-of-range original byte. -/
theorem Claims.C3 :
    (∀ (w : Writer) (b : Nat) (rest : List Nat),
      w.write_string (b :: rest) =
        Bind.bind (w.write_byte (forwardByte b)) (fun v => v.write_string rest)) ∧
    (∀ b : Nat, ((0x20 ≤ b ∧ b ≤ 0x7e) ∨ b = 10) → forwardByte b = b) ∧
    (∀ b : Nat, ¬((0x20 ≤ b ∧ b ≤ 0x7e) ∨ b = 10) → forwardByte b = 0xfe) ∧
    (∀ (w : Writer) (s : List Nat), gridWF w.buffer → allCharsOK w.buffer →
      ∀ v, w.write_string s = some v → allCharsOK v.buffer) := by
  refine ⟨?_, ?_, ?_, ?_⟩
  · intro w b rest
    rw [write_string_cons]
    unfold forwardByte
    by_cases hb : (0x20 ≤ b ∧ b ≤ 0x7e) ∨ b = 10
    · rw [if_pos hb, if_pos hb]
    · rw [if_neg hb, if_neg hb]
  · intro b hb
    unfold forwardByte
    rw [if_pos hb]
  · intro b hb
    unfold forwardByte
    rw [if_neg hb]
  · intro w s hW hA v hv
    exact write_string_charOK s w hW hA v hv

/-- C3 witness: the forwarding equation and the fallback at the unprintable
byte 200, the identity at byte 65, and range preservation on the test fixture
after writing byte 200. -/
theorem Claims.C3_witness :
    construct_writer.write_string [200] =
      Bind.bind (construct_writer.write_byte (forwardByte 200))
        (fun v => v.write_string []) ∧
    forwardByte 200 = 0xfe ∧ forwardByte 65 = 65 ∧
    ∀ v, construct_writer.write_string [200] = some v → allCharsOK v.buffer :=
  ⟨Claims.C3.1 construct_writer 200 [],
   Claims.C3.2.2.1 200 (by decide),
   Claims.C3.2.1 65 (by decide),
   fun v hv => Claims.C3.2.2.2 construct_writer [200] (by decide) (by decide) v hv⟩

/-- C4: writing the newline byte is exactly `new_line`: it scrolls once, writes
no character cell of its own, and leaves the column at 0 — whatever the
current column was, including 0. -/
theorem Claims.C4 (w : Writer) (hW : gridWF w.buffer) :
    w.write_byte 10 = w.new_line ∧
    ∃ v, w.write_byte 10 = some v ∧ v.column_position = 0 ∧
      v.color_code = w.color_code ∧
      v.buffer = w.buffer.drop 1 ++ [blankRow w.color_code] := by
  refine ⟨write_byte_newline w, ?_⟩
  rw [write_byte_newline, new_line_eq w hW]
  exact ⟨_, rfl, rfl, rfl, rfl⟩

/-- C4 witness: the newline behaviour at the test fixture writer. -/
theorem Claims.C4_witness :
    construct_writer.write_byte 10 = construct_writer.new_line ∧
    ∃ v, construct_writer.write_byte 10 = some v ∧ v.column_position = 0 ∧
      v.color_code = construct_writer.color_code ∧
      v.buffer = construct_writer.buffer.drop 1
        ++ [blankRow construct_writer.color_code] :=
  Claims.C4 construct_writer (by decide)

/-- C5: the attribute byte is `(bg << 4) | fg`: background code in the high
nibble, foreground in the low nibble, each color mapping injectively to a
4-bit code. -/
theorem Claims.C5 :
    (∀ fg bg : Color,
      (ColorCode.new fg bg).val = bg.toU8 * 16 + fg.toU8 ∧
      (ColorCode.new fg bg).val / 16 = bg.toU8 ∧
      (ColorCode.new fg bg).val % 16 = fg.toU8 ∧
      (ColorCode.new fg bg).val < 256 ∧ fg.toU8 < 16 ∧ bg.toU8 < 16) ∧
    Function.Injective Color.toU8 := by
  constructor
  · decide
  · intro a b h
    revert h
    revert a b
    decide

/-- C8: the `fmt::Write` integration never fails: from any well-formed state
`write_str` succeeds and returns the `Ok(())` outcome, so the `unwrap` in the
print entry point cannot panic for reasons intrinsic to the writer. -/
theorem Claims.C8 (w : Writer) (s : List Nat) (hW : gridWF w.buffer) :
    ∃ v, w.write_str s = some (v, FmtResult.ok) := by
  obtain ⟨v, hv, -, -, -⟩ := write_string_wf s w hW
  refine ⟨v, ?_⟩
  unfold Writer.write_str
  rw [hv]
  rfl

/-- C8 witness: formatted-writing "hi" on the test fixture succeeds with Ok. -/
theorem Claims.C8_witness :
    ∃ v, construct_writer.write_str [104, 105] = some (v, FmtResult.ok) :=
  Claims.C8 construct_writer [104, 105] (by decide)

/-- C9: with the column within bounds, no operation's indexing can go out of
range: `write_byte` (any byte), `new_line`, `clear_row` at the last row and
`write_string` (any string) all return `some`, i.e. the `none` branch of the
embedded fallible accesses is unreachable. -/
theorem Claims.C9 (w : Writer) (b : Nat) (s : List Nat) (hW : gridWF w.buffer)
    (hc : w.column_position ≤ BUFFER_WIDTH) :
    (∃ v, w.write_byte b = some v) ∧ (∃ v, w.new_line = some v) ∧
    (∃ v, w.clear_row (BUFFER_HEIGHT - 1) = some v) ∧
    (∃ v, w.write_string s = some v) := by
  refine ⟨?_, ?_, ?_, ?_⟩
  · obtain ⟨v, hv, -⟩ := write_byte_wf w b hW
    exact ⟨v, hv⟩
  · exact ⟨_, new_line_eq w hW⟩
  · unfold Writer.clear_row
    simp only [clearRowLoop_eq hW _ (show BUFFER_HEIGHT - 1 < BUFFER_HEIGHT by decide)
      BUFFER_WIDTH (le_refl _), Option.bind_eq_bind, Option.some_bind]
    exact ⟨_, rfl⟩
  · obtain ⟨v, hv, -⟩ := write_string_wf s w hW
    exact ⟨v, hv⟩

/-- C9 witness: in-bounds behaviour at the test fixture writer. -/
theorem Claims.C9_witness :
    (∃ v, construct_writer.write_byte 65 = some v) ∧
    (∃ v, construct_writer.new_line = some v) ∧
    (∃ v, construct_writer.clear_row (BUFFER_HEIGHT - 1) = some v) ∧
    (∃ v, construct_writer.write_string [65, 10, 200] = some v) :=
  Claims.C9 construct_writer 65 [65, 10, 200] (by decide) (by decide)

/-- C10: the invariant `column_position ≤ WIDTH` (with a well-formed grid) is
preserved by `write_byte` and `write_string`; moreover, because the wrap guard
tests `>=` rather than `==`, `write_byte` with a non-newline byte succeeds and
re-establishes the invariant even from a state with `column_position > WIDTH`. -/
theorem Claims.C10 :
    (∀ (w : Writer) (b : Nat), writerWF w → ∀ v, w.write_byte b = some v → writerWF v) ∧
    (∀ (w : Writer) (s : List Nat), writerWF w →
      ∀ v, w.write_string s = some v → writerWF v) ∧
    (∀ (w : Writer) (b : Nat), gridWF w.buffer → b ≠ 10 →
      ∃ v, w.write_byte b = some v ∧ writerWF v) := by
  refine ⟨?_, ?_, ?_⟩
  · intro w b hw v hv
    obtain ⟨u, hu, -, hWu⟩ := write_byte_wf w b hw.1
    rw [hu] at hv
    obtain rfl := Option.some_inj.mp hv
    exact hWu
  · intro w s hw v hv
    obtain ⟨u, hu, -, hWu, hcu⟩ := write_string_wf s w hw.1
    rw [hu] at hv
    obtain rfl := Option.some_inj.mp hv
    exact ⟨hWu, hcu hw.2⟩
  · intro w b hW hb
    obtain ⟨v, hv, -, hWv⟩ := write_byte_wf w b hW
    exact ⟨v, hv, hWv⟩

/-- C10 witness: invariant preservation at a writer whose column is past the
width (81 on a fresh grid), where the non-newline byte wraps and lands back in
bounds. -/
theorem Claims.C10_witness :
    (∀ v, construct_writer.write_byte 65 = some v → writerWF v) ∧
    (∀ v, construct_writer.write_string [65, 200, 10] = some v → writerWF v) ∧
    (∃ v, (⟨81, ColorCode.new Color.Blue Color.Magenta, construct_buffer⟩ :
        Writer).write_byte 65 = some v ∧ writerWF v) :=
  ⟨fun v hv => Claims.C10.1 construct_writer 65 (by decide) v hv,
   fun v hv => Claims.C10.2.1 construct_writer [65, 200, 10] (by decide) v hv,
   Claims.C10.2.2 ⟨81, ColorCode.new Color.Blue Color.Magenta, construct_buffer⟩
     65 (by decide) (by decide)⟩

end VgaBuffers
